import Mathlib

/-!
Shallow embedding of `src/bw_ssh_agent.py` (a tool that provisions an SSH
agent with private keys stored in a Bitwarden vault) and proofs about the
claims on its behaviour.

External processes (`bw`, `ssh-agent`, `ssh-add`), the interactive password
prompt and JSON parsing of external output are modelled by an oracle
structure `World` that fixes each external outcome; the functions below are
direct translations of the Python methods, threading the process
environment explicitly and recording each external interaction as an
`Event` in a trace.
-/

/-! ## String helpers mirroring the Python string operations used -/

/-- `leadsWith p l` is Python's `l.startswith(p)` on character lists. -/
def leadsWith : List Char → List Char → Bool
  | [], _ => true
  | _ :: _, [] => false
  | a :: as, b :: bs => a = b && leadsWith as bs

/-- `hasSub n h` is Python's `n in h` (substring test) on character lists. -/
def hasSub (needle : List Char) : List Char → Bool
  | [] => leadsWith needle []
  | c :: t => leadsWith needle (c :: t) || hasSub needle t

/-- Python's `needle in hay` for strings. -/
def strContains (hay needle : String) : Bool :=
  hasSub needle.data hay.data

/-- Python's `s.lower()` (ASCII model, as in `Char.toLower`). -/
def lowerStr (s : String) : String :=
  String.mk (s.data.map Char.toLower)

/-- Python's `s.strip()`: drop leading and trailing whitespace. -/
def trimStr (s : String) : String :=
  String.mk (((s.data.dropWhile Char.isWhitespace).reverse.dropWhile
    Char.isWhitespace).reverse)

/-- Python's `l.startswith(p)` for strings. -/
def strStartsWith (s p : String) : Bool :=
  leadsWith p.data s.data

/-- Characters of `l` strictly before the first occurrence of `c`;
this is Python's `l.split(c)[0]`. -/
def takeUntilChar (c : Char) : List Char → List Char
  | [] => []
  | a :: as => if a = c then [] else a :: takeUntilChar c as

/-- Python's `l.split(c)` on character lists (always non-empty result). -/
def splitOnCharL (c : Char) : List Char → List (List Char)
  | [] => [[]]
  | a :: as =>
    if a = c then [] :: splitOnCharL c as
    else
      match splitOnCharL c as with
      | [] => [[a]]
      | g :: gs => (a :: g) :: gs

/-- Python's `key, value = line.split(";")[0].split("=")`: succeeds exactly
when the part before the first `;` contains exactly one `=`; a failed
unpacking raises `ValueError` in the source, modelled as `none`. -/
def parseEnvLine (line : String) : Option (String × String) :=
  match splitOnCharL '=' (takeUntilChar ';' line.data) with
  | [k, v] => some (String.mk k, String.mk v)
  | _ => none

/-! ## Process environment (`os.environ`) -/

/-- The process environment, an association list; `envSet` shadows. -/
abbrev Env := List (String × String)

/-- `os.environ.get k` -/
def envGet : Env → String → Option String
  | [], _ => none
  | (k, v) :: rest, key => if k = key then some v else envGet rest key

/-- `env[k] = v` -/
def envSet (env : Env) (key v : String) : Env :=
  (key, v) :: env

/-! ## Data model -/

/-- The `sshKey` sub-structure of a vault item: dictionary fields that may
be absent (`none`) or present, possibly empty. -/
structure SSHKeyRec where
  privateKey : Option String
  keyFingerprint : Option String
deriving Repr, DecidableEq

/-- A vault item as returned by `bw list items`: `name` plus an optional
`sshKey` sub-structure. -/
structure VaultItem where
  name : String
  sshKey : Option SSHKeyRec
deriving Repr, DecidableEq

/-- Outcome of `json.loads` on the `bw status` stdout followed by
`.get("status")`: `malformed` when `json.loads` raises (or the value has no
`.get`), otherwise the optional `"status"` field. -/
inductive StatusResp where
  | malformed : StatusResp
  | parsed : Option String → StatusResp
deriving Repr, DecidableEq

/-- Outcome of `json.loads` on the `bw list items` stdout. -/
inductive ListResp where
  | malformed : ListResp
  | parsed : List VaultItem → ListResp
deriving Repr, DecidableEq

/-- Oracle fixing every external outcome of one run: exit codes and outputs
of the child processes, existence of filesystem paths, and the password
typed at the prompt. -/
structure World where
  bwVersionOk : Bool
  pathExists : String → Bool
  agentLaunchExit : Int
  agentLaunchStdout : List String
  statusResp : StatusResp
  password : String
  unlockExit : Int
  unlockStdout : String
  unlockStderr : String
  listExit : Int
  listResp : ListResp
  sshAddExit : VaultItem → Int
  sshAddStderr : VaultItem → String

/-- External interactions, recorded in order of occurrence. -/
inductive Event where
  | runBwVersion : Event
  | runAgentLaunch : Event
  | runBwStatus : Env → Event
  | promptPassword : Event
  | runBwUnlock : List String → Event
  | runBwList : Env → Event
  | runSshAdd : List String → Option String → Env → Event
deriving Repr, DecidableEq

/-- Is the event an invocation of the agent "add identity" operation? -/
def isSshAddEvent : Event → Bool
  | .runSshAdd _ _ _ => true
  | _ => false

/-- Is the event a vault status, unlock, or listing interaction? -/
def isVaultEvent : Event → Bool
  | .runBwStatus _ => true
  | .runBwUnlock _ => true
  | .runBwList _ => true
  | _ => false

/-- Is the event the agent-launch invocation? -/
def isAgentLaunchEvent : Event → Bool
  | .runAgentLaunch => true
  | _ => false

/-- Is the event the interactive master-password prompt? -/
def isPromptEvent : Event → Bool
  | .promptPassword => true
  | _ => false

/-! ## `check_prerequisites` -/

/-- The loop over `result.stdout.splitlines()`: lines starting with
`SSH_AUTH_SOCK=` or `SSH_AGENT_PID=` are unpacked via
`line.split(";")[0].split("=")` and written to `os.environ`; an unpacking
failure raises, so processing stops with the environment mutated so far
(second component `false`); other lines are skipped. -/
def applyAgentLines : List String → Env → Env × Bool
  | [], env => (env, true)
  | line :: rest, env =>
    if strStartsWith line "SSH_AUTH_SOCK=" || strStartsWith line "SSH_AGENT_PID=" then
      match parseEnvLine line with
      | some kv => applyAgentLines rest (envSet env kv.1 kv.2)
      | none => (env, false)
    else applyAgentLines rest env

/-- `not os.environ.get("SSH_AUTH_SOCK") or not os.path.exists(...)`:
the variable is unset, empty (falsy), or names a non-existent path. -/
def needsAgentStart (w : World) (env : Env) : Bool :=
  match envGet env "SSH_AUTH_SOCK" with
  | none => true
  | some s => s = "" || !(w.pathExists s)

/-- Result of `check_prerequisites`: its boolean return value, the process
environment it leaves behind, and the external interactions performed. -/
structure CheckResult where
  ok : Bool
  env : Env
  events : List Event
deriving Repr, DecidableEq

/-- `BitwardenSSHAgent.check_prerequisites`: check `bw --version`
(any failure is caught and returns `False`); if the agent socket variable
is unset/empty or its path does not exist, run `ssh-agent -s` once, fail on
non-zero exit, otherwise parse its stdout lines into `os.environ`. -/
def check_prerequisites (w : World) (env : Env) : CheckResult :=
  if w.bwVersionOk = false then
    { ok := false, env := env, events := [Event.runBwVersion] }
  else if needsAgentStart w env then
    if w.agentLaunchExit ≠ 0 then
      { ok := false, env := env, events := [Event.runBwVersion, Event.runAgentLaunch] }
    else
      let r := applyAgentLines w.agentLaunchStdout env
      { ok := r.2, env := r.1, events := [Event.runBwVersion, Event.runAgentLaunch] }
  else
    { ok := true, env := env, events := [Event.runBwVersion] }

/-! ## `get_session_key` -/

/-- Result of `get_session_key`: the returned value (`None` on caught
error) and the external interactions performed. The source never writes
`os.environ` here: `bw status` receives `os.environ.copy()` and the
unlock uses the inherited environment. -/
structure SessionResult where
  token : Option String
  events : List Event
deriving Repr, DecidableEq

/-- The prompt-and-unlock tail of `get_session_key`: prompt for the master
password (echo suppressed), run `bw unlock <password> --raw` (note: the
password appears in the argument vector, as in the source), fail on
non-zero exit, otherwise return `output.strip()`. -/
def promptAndUnlock (w : World) (ev0 : List Event) : SessionResult :=
  let evs := ev0 ++ [Event.promptPassword,
    Event.runBwUnlock ["bw", "unlock", w.password, "--raw"]]
  if w.unlockExit ≠ 0 then { token := none, events := evs }
  else { token := some (trimStr w.unlockStdout), events := evs }

/-- `BitwardenSSHAgent.get_session_key`: when `BW_SESSION` is set and
truthy, run `bw status` (with a copy of the environment) and parse its
stdout as JSON — a parse failure raises and is caught by the method's
handler, returning `None` without prompting; a parsed status of
`"unlocked"` returns the existing token; anything else falls through to
the prompt-and-unlock path, as does an unset or empty `BW_SESSION`. -/
def get_session_key (w : World) (env : Env) : SessionResult :=
  match envGet env "BW_SESSION" with
  | some s =>
    if s = "" then promptAndUnlock w []
    else
      match w.statusResp with
      | .malformed => { token := none, events := [Event.runBwStatus env] }
      | .parsed field =>
        if field = some "unlocked" then
          { token := some s, events := [Event.runBwStatus env] }
        else promptAndUnlock w [Event.runBwStatus env]
  | none => promptAndUnlock w []

/-! ## `get_ssh_keys` -/

/-- Python truthiness of `"sshKey" in item and item["sshKey"].get("privateKey")`:
the sub-structure is present and carries a non-empty private key. -/
def hasPrivateKey (item : VaultItem) : Bool :=
  match item.sshKey with
  | some k =>
    match k.privateKey with
    | some p => p ≠ ""
    | none => false
  | none => false

/-- The `continue` guard `if name_filter and name_filter.lower() not in
item["name"].lower()`: skip when the filter is truthy (set and non-empty)
and not a case-insensitive substring of the item's name. -/
def skipByFilter (name_filter : Option String) (item : VaultItem) : Bool :=
  match name_filter with
  | some f => f ≠ "" && !(strContains (lowerStr item.name) (lowerStr f))
  | none => false

/-- The accumulation loop of `get_ssh_keys` over the parsed items. -/
def collectKeys (name_filter : Option String) : List VaultItem → List VaultItem
  | [] => []
  | item :: rest =>
    if hasPrivateKey item then
      if skipByFilter name_filter item then collectKeys name_filter rest
      else item :: collectKeys name_filter rest
    else collectKeys name_filter rest

deriving instance DecidableEq for Except

/-- Result of `get_ssh_keys`: `Except.error` models the one exception the
method raises past its boundary (the missing-session raise placed before
its `try`); every error inside the `try` is caught and yields `.ok []`. -/
structure KeysResult where
  result : Except String (List VaultItem)
  events : List Event
deriving Repr, DecidableEq

/-- `BitwardenSSHAgent.get_ssh_keys`: raise when no truthy session key is
held; otherwise attach the session token to a copy of the environment, run
`bw list items` under it, and on non-zero exit or a JSON parse failure the
caught exception yields `[]`; on success return the filtered items. -/
def get_ssh_keys (w : World) (env : Env) (session_key : Option String)
    (name_filter : Option String) : KeysResult :=
  match session_key with
  | none => { result := .error "No active Bitwarden session", events := [] }
  | some s =>
    if s = "" then { result := .error "No active Bitwarden session", events := [] }
    else
      let env2 := envSet env "BW_SESSION" s
      if w.listExit ≠ 0 then
        { result := .ok [], events := [Event.runBwList env2] }
      else
        match w.listResp with
        | .malformed => { result := .ok [], events := [Event.runBwList env2] }
        | .parsed items =>
          { result := .ok (collectKeys name_filter items),
            events := [Event.runBwList env2] }

/-! ## `add_key_to_agent` -/

/-- `key_data["sshKey"]["privateKey"]`: `none` models the `KeyError`
raised (and caught by the method) when either lookup is absent. -/
def privOf (item : VaultItem) : Option String :=
  match item.sshKey with
  | none => none
  | some k => k.privateKey

/-- `key_data['sshKey'].get('keyFingerprint', 'unknown')` as displayed. -/
def fpDisplay (item : VaultItem) : String :=
  match item.sshKey with
  | some k =>
    match k.keyFingerprint with
    | some f => f
    | none => "unknown"
  | none => "unknown"

/-- Result of `add_key_to_agent`: boolean return value, the value of the
`temp_key_file` local at the `finally` block, whether the `finally` block
deleted a file, and the external interactions performed. -/
structure AddResult where
  success : Bool
  temp_key_file : Option String
  deletedTempFile : Bool
  events : List Event
deriving Repr, DecidableEq

/-- `BitwardenSSHAgent.add_key_to_agent`: `temp_key_file` is initialised to
`None` and never reassigned; the private key is passed to
`ssh-add -` via the child's input channel with a copy of the process
environment; non-zero exit raises, is caught, and returns `False`; a
`KeyError` extracting the private key is likewise caught before any child
is spawned; the `finally` block deletes a file only when `temp_key_file`
is set and its path exists. -/
def add_key_to_agent (w : World) (env : Env) (item : VaultItem) : AddResult :=
  let temp_key_file : Option String := none
  let cleanupDeletes :=
    match temp_key_file with
    | some f => w.pathExists f
    | none => false
  match privOf item with
  | none =>
    { success := false, temp_key_file := temp_key_file,
      deletedTempFile := cleanupDeletes, events := [] }
  | some p =>
    if w.sshAddExit item ≠ 0 then
      { success := false, temp_key_file := temp_key_file,
        deletedTempFile := cleanupDeletes,
        events := [Event.runSshAdd ["ssh-add", "-"] (some p) env] }
    else
      { success := true, temp_key_file := temp_key_file,
        deletedTempFile := cleanupDeletes,
        events := [Event.runSshAdd ["ssh-add", "-"] (some p) env] }

/-- The provisioning loop of `main`: each key is attempted in order and its
per-key outcome recorded; one failure never stops the loop. -/
def provisionAll (w : World) (env : Env) : List VaultItem → List (VaultItem × Bool) × List Event
  | [] => ([], [])
  | item :: rest =>
    let r := add_key_to_agent w env item
    let t := provisionAll w env rest
    ((item, r.success) :: t.1, r.events ++ t.2)

/-! ## `main` -/

/-- The dry-run line `  • {name} (fingerprint: {fp})`. -/
def dryRunLine (item : VaultItem) : String :=
  "  • " ++ item.name ++ " (fingerprint: " ++ fpDisplay item ++ ")"

/-- The per-key outcome line printed by the provisioning loop. -/
def addLine (item : VaultItem) (ok : Bool) : String :=
  if ok then "  ✓ Added " ++ item.name ++ " (fingerprint: " ++ fpDisplay item ++ ")"
  else "  ✗ Failed to add " ++ item.name

/-- Python truthiness of the value `main` tests with
`if not agent.get_session_key()`. -/
def sessionTruthy : Option String → Bool
  | none => false
  | some s => s ≠ ""

/-- Outcome of one whole run: the process exit code, the ordered trace of
external interactions, the final process-global environment, and the
non-diagnostic lines `main` prints about keys. -/
structure RunResult where
  exitCode : Nat
  events : List Event
  finalEnv : Env
  output : List String
deriving Repr, DecidableEq

/-- `main`: prerequisites (exit 1 on failure), session acquisition (exit 1
on a falsy result), key listing, then either the "no keys" exit 0, the
dry-run printout, or the fail-soft provisioning loop; the function then
returns normally, so the process exits 0. The `.error` branch models an
uncaught exception from `get_ssh_keys` (unreachable here, since `main`
only calls it after obtaining a truthy session key). -/
def main_run (w : World) (dry_run : Bool) (name_filter : Option String)
    (env0 : Env) : RunResult :=
  let pc := check_prerequisites w env0
  if pc.ok = false then
    { exitCode := 1, events := pc.events, finalEnv := pc.env, output := [] }
  else
    let sk := get_session_key w pc.env
    match sk.token with
    | none =>
      { exitCode := 1, events := pc.events ++ sk.events, finalEnv := pc.env, output := [] }
    | some s =>
      if s = "" then
        { exitCode := 1, events := pc.events ++ sk.events, finalEnv := pc.env, output := [] }
      else
        let gk := get_ssh_keys w pc.env (some s) name_filter
        match gk.result with
        | .error _ =>
          { exitCode := 1, events := pc.events ++ sk.events ++ gk.events,
            finalEnv := pc.env, output := [] }
        | .ok ssh_keys =>
          if ssh_keys.isEmpty then
            { exitCode := 0, events := pc.events ++ sk.events ++ gk.events,
              finalEnv := pc.env, output := ["No SSH keys found in vault"] }
          else if dry_run then
            { exitCode := 0, events := pc.events ++ sk.events ++ gk.events,
              finalEnv := pc.env,
              output := "Dry run - would add these keys:" :: ssh_keys.map dryRunLine }
          else
            let pr := provisionAll w pc.env ssh_keys
            { exitCode := 0, events := pc.events ++ sk.events ++ gk.events ++ pr.2,
              finalEnv := pc.env,
              output := ("Adding SSH keys to agent:" ::
                pr.1.map (fun r => addLine r.1 r.2)) ++
                ["Operation completed successfully!"] }

/-! ## Spec-side definition for the refinement claim on filtering -/

/-- Modelled from the spec's words (§4.4, §8): an entry is kept exactly
when it carries a non-empty private key under its SSH sub-structure and,
when a filter is supplied, its name contains the filter as a
case-insensitive substring. -/
def specKeep (name_filter : Option String) (item : VaultItem) : Bool :=
  hasPrivateKey item &&
    match name_filter with
    | some f => strContains (lowerStr item.name) (lowerStr f)
    | none => true

/-! ## Helper lemmas -/

theorem hasSub_nil (l : List Char) : hasSub [] l = true := by
  cases l with
  | nil => rfl
  | cons c t => simp [hasSub, leadsWith]

theorem leadsWith_iff (p : List Char) : ∀ l, leadsWith p l = true ↔ ∃ t, l = p ++ t := by
  induction p with
  | nil => intro l; simp [leadsWith]
  | cons a as ih =>
    intro l
    cases l with
    | nil => simp [leadsWith]
    | cons b bs =>
      simp only [leadsWith, Bool.and_eq_true, decide_eq_true_eq, ih, List.cons_append,
        List.cons.injEq]
      constructor
      · rintro ⟨h1, t, h2⟩
        exact ⟨t, h1.symm, h2⟩
      · rintro ⟨t, h1, h2⟩
        exact ⟨h1.symm, t, h2⟩

theorem takeUntilChar_append (c : Char) (p t : List Char) (h : c ∉ p) :
    takeUntilChar c (p ++ t) = p ++ takeUntilChar c t := by
  induction p with
  | nil => rfl
  | cons a as ih =>
    have ha : ¬(a = c) := fun e => h (by simp [e])
    have h' : c ∉ as := fun e => h (List.mem_cons_of_mem _ e)
    simp [takeUntilChar, ha, ih h']

theorem splitOnCharL_sep (c : Char) (p t : List Char) (h : c ∉ p) :
    splitOnCharL c (p ++ c :: t) = p :: splitOnCharL c t := by
  induction p with
  | nil => simp [splitOnCharL]
  | cons a as ih =>
    have ha : ¬(a = c) := fun e => h (by simp [e])
    have h' : c ∉ as := fun e => h (List.mem_cons_of_mem _ e)
    simp [splitOnCharL, ha, ih h']

theorem parseEnvLine_key_of_lead (base : List Char) (hsemi : ';' ∉ base)
    (heq : '=' ∉ base) (line : String) (rest : List Char)
    (hline : line.data = base ++ '=' :: rest) (k v : String)
    (hp : parseEnvLine line = some (k, v)) : k = String.mk base := by
  unfold parseEnvLine at hp
  rw [hline] at hp
  have hne : ¬(('=' : Char) = ';') := by decide
  have h1 : takeUntilChar ';' (base ++ '=' :: rest) =
      base ++ '=' :: takeUntilChar ';' rest := by
    rw [takeUntilChar_append ';' base ('=' :: rest) hsemi]
    simp [takeUntilChar, hne]
  rw [h1, splitOnCharL_sep '=' base (takeUntilChar ';' rest) heq] at hp
  cases hs : splitOnCharL '=' (takeUntilChar ';' rest) with
  | nil => rw [hs] at hp; simp at hp
  | cons g gs =>
    rw [hs] at hp
    cases gs with
    | nil =>
      simp only [Option.some.injEq, Prod.mk.injEq] at hp
      exact hp.1.symm
    | cons g2 gs2 => simp at hp

theorem parseEnvLine_sock (line : String)
    (h : strStartsWith line "SSH_AUTH_SOCK=" = true) (k v : String)
    (hp : parseEnvLine line = some (k, v)) : k = "SSH_AUTH_SOCK" := by
  simp only [strStartsWith] at h
  obtain ⟨t, ht⟩ := (leadsWith_iff "SSH_AUTH_SOCK=".data line.data).mp h
  have hb : ("SSH_AUTH_SOCK=".data : List Char) = "SSH_AUTH_SOCK".data ++ ['='] := by decide
  have ht' : line.data = "SSH_AUTH_SOCK".data ++ '=' :: t := by
    rw [ht, hb]
    simp
  exact parseEnvLine_key_of_lead "SSH_AUTH_SOCK".data (by decide) (by decide) line t ht' k v hp

theorem parseEnvLine_pid (line : String)
    (h : strStartsWith line "SSH_AGENT_PID=" = true) (k v : String)
    (hp : parseEnvLine line = some (k, v)) : k = "SSH_AGENT_PID" := by
  simp only [strStartsWith] at h
  obtain ⟨t, ht⟩ := (leadsWith_iff "SSH_AGENT_PID=".data line.data).mp h
  have hb : ("SSH_AGENT_PID=".data : List Char) = "SSH_AGENT_PID".data ++ ['='] := by decide
  have ht' : line.data = "SSH_AGENT_PID".data ++ '=' :: t := by
    rw [ht, hb]
    simp
  exact parseEnvLine_key_of_lead "SSH_AGENT_PID".data (by decide) (by decide) line t ht' k v hp

theorem applyAgentLines_frame (lines : List String) (key : String)
    (h1 : key ≠ "SSH_AUTH_SOCK") (h2 : key ≠ "SSH_AGENT_PID") :
    ∀ env, envGet (applyAgentLines lines env).1 key = envGet env key := by
  induction lines with
  | nil => intro env; rfl
  | cons line rest ih =>
    intro env
    by_cases hc : (strStartsWith line "SSH_AUTH_SOCK=" ||
        strStartsWith line "SSH_AGENT_PID=") = true
    · simp only [applyAgentLines, if_pos hc]
      cases hp : parseEnvLine line with
      | none => rfl
      | some kv =>
        have hkey : kv.1 = "SSH_AUTH_SOCK" ∨ kv.1 = "SSH_AGENT_PID" := by
          rw [Bool.or_eq_true] at hc
          rcases hc with hs | hs
          · exact Or.inl (parseEnvLine_sock line hs kv.1 kv.2 (by rw [hp]))
          · exact Or.inr (parseEnvLine_pid line hs kv.1 kv.2 (by rw [hp]))
        have hne : ¬(kv.1 = key) := by
          rcases hkey with h | h <;> rw [h]
          · exact fun e => h1 e.symm
          · exact fun e => h2 e.symm
        calc envGet (applyAgentLines rest (envSet env kv.1 kv.2)).1 key
            = envGet (envSet env kv.1 kv.2) key := ih _
          _ = envGet env key := by simp [envSet, envGet, hne]
    · simp only [applyAgentLines, if_neg hc]
      exact ih env

theorem collectKeys_eq_filter (nf : Option String) (items : List VaultItem) :
    collectKeys nf items = items.filter (specKeep nf) := by
  induction items with
  | nil => rfl
  | cons item rest ih =>
    cases hpk : hasPrivateKey item with
    | false =>
      have hsp : specKeep nf item = false := by simp [specKeep, hpk]
      simp [collectKeys, hpk, List.filter_cons, hsp, ih]
    | true =>
      cases hsk : skipByFilter nf item with
      | true =>
        have hsp : specKeep nf item = false := by
          cases nf with
          | none => simp [skipByFilter] at hsk
          | some f =>
            simp only [skipByFilter, Bool.and_eq_true, decide_eq_true_eq,
              Bool.not_eq_true'] at hsk
            simp [specKeep, hpk, hsk.2]
        simp [collectKeys, hpk, hsk, List.filter_cons, hsp, ih]
      | false =>
        have hsp : specKeep nf item = true := by
          cases nf with
          | none => simp [specKeep, hpk]
          | some f =>
            by_cases hf : f = ""
            · have h0 : lowerStr f = "" := by rw [hf]; rfl
              have hc : strContains (lowerStr item.name) (lowerStr f) = true := by
                rw [h0]
                exact hasSub_nil _
              simp [specKeep, hpk, hc]
            · cases hb : strContains (lowerStr item.name) (lowerStr f) with
              | true => simp [specKeep, hpk, hb]
              | false =>
                exfalso
                simp [skipByFilter, hf, hb] at hsk
        simp [collectKeys, hpk, hsk, List.filter_cons, hsp, ih]

theorem provisionAll_map_fst (w : World) (env : Env) :
    ∀ keys, ((provisionAll w env keys).1.map Prod.fst) = keys := by
  intro keys
  induction keys with
  | nil => rfl
  | cons item rest ih => simp [provisionAll, ih]

theorem provisionAll_counts (w : World) (env : Env) :
    ∀ keys, (provisionAll w env keys).1.countP (fun r => r.2) +
      (provisionAll w env keys).1.countP (fun r => !r.2) = keys.length := by
  intro keys
  induction keys with
  | nil => rfl
  | cons item rest ih =>
    simp only [provisionAll, List.countP_cons, List.length_cons]
    cases (add_key_to_agent w env item).success <;> simp <;> omega

theorem get_ssh_keys_ok (w : World) (env : Env) (nf : Option String) (s : String)
    (hs : ¬s = "") :
    ∃ keys, (get_ssh_keys w env (some s) nf).result = Except.ok keys := by
  unfold get_ssh_keys
  simp only [if_neg hs]
  by_cases hl : w.listExit ≠ 0
  · exact ⟨[], by simp [hl]⟩
  · cases hr : w.listResp with
    | malformed => exact ⟨[], by simp [hl, hr]⟩
    | parsed items => exact ⟨collectKeys nf items, by simp [hl, hr]⟩

/-! ## Sample data for witnesses -/

/-- A qualifying entry: non-empty private key, a fingerprint. -/
def itemGithub : VaultItem :=
  { name := "github",
    sshKey := some { privateKey := some "KEY1", keyFingerprint := some "AA:BB" } }

/-- A non-qualifying entry: `sshKey` present but no private key. -/
def itemGitlab : VaultItem :=
  { name := "gitlab", sshKey := some { privateKey := none, keyFingerprint := none } }

/-! ## Claims -/

/-- C3: for every vault entry sequence and optional name filter, the
extracted key sequence equals exactly the entries that carry a non-empty
private key under the `sshKey` sub-structure and (when a filter is
supplied) whose name contains the filter as a case-insensitive substring
(`specKeep`, written from the spec's words), in the listing's original
order (a sublist of the input); an entry lacking a non-empty private key
is never included. -/
theorem c3_extraction_matches_spec (nf : Option String) (items : List VaultItem) :
    collectKeys nf items = items.filter (specKeep nf) ∧
    List.Sublist (collectKeys nf items) items ∧
    ∀ item, item ∈ collectKeys nf items → hasPrivateKey item = true := by
  refine ⟨collectKeys_eq_filter nf items, ?_, ?_⟩
  · rw [collectKeys_eq_filter]
    exact List.filter_sublist items
  · intro item hmem
    rw [collectKeys_eq_filter] at hmem
    have h := List.of_mem_filter hmem
    simp only [specKeep, Bool.and_eq_true] at h
    exact h.1

/-- Witness for C3 at a concrete filter and item list. -/
theorem c3_extraction_matches_spec_witness :
    itemGithub ∈ collectKeys (some "Hub") [itemGithub, itemGitlab] ∧
    hasPrivateKey itemGithub = true :=
  ⟨by decide,
   (c3_extraction_matches_spec (some "Hub") [itemGithub, itemGitlab]).2.2
      itemGithub (by decide)⟩

/-- C4: `add_key_to_agent` never throws past its own boundary: it yields a
boolean per-key outcome determined by the presence of the key material and
the `ssh-add` exit code; the provisioning loop attempts every key in order
regardless of earlier failures, and the counts of Added plus Failed
outcomes equal the length of the input sequence. -/
theorem c4_provisioning_fail_soft (w : World) (env : Env) (keys : List VaultItem)
    (item : VaultItem) :
    ((provisionAll w env keys).1.map Prod.fst = keys) ∧
    ((provisionAll w env keys).1.countP (fun r => r.2) +
      (provisionAll w env keys).1.countP (fun r => !r.2) = keys.length) ∧
    ((add_key_to_agent w env item).success =
      ((privOf item).isSome && (w.sshAddExit item == 0))) := by
  refine ⟨provisionAll_map_fst w env keys, provisionAll_counts w env keys, ?_⟩
  unfold add_key_to_agent
  cases privOf item with
  | none => simp
  | some p =>
    by_cases h : w.sshAddExit item ≠ 0
    · simp [h]
    · simp [h]
      omega

/-- C9: for every entry, `add_key_to_agent` hands the private-key material
to the agent solely on the child's input channel: the argument vector is
the constant `["ssh-add", "-"]`, the stdin payload is the private key, the
`temp_key_file` local stays `None`, and the cleanup path never deletes a
file. -/
theorem c9_key_material_via_stdin (w : World) (env : Env) (item : VaultItem) :
    (add_key_to_agent w env item).temp_key_file = none ∧
    (add_key_to_agent w env item).deletedTempFile = false ∧
    (add_key_to_agent w env item).events =
      (match privOf item with
       | none => []
       | some p => [Event.runSshAdd ["ssh-add", "-"] (some p) env]) := by
  unfold add_key_to_agent
  cases privOf item with
  | none => simp
  | some p => by_cases h : w.sshAddExit item ≠ 0 <;> simp [h]

/-- C6: the process exit code is 1 exactly when the prerequisite check or
the session acquisition fails, and 0 otherwise — including the "no keys
found" case, dry-run, and runs where individual key additions failed. -/
theorem c6_exit_codes (w : World) (dry : Bool) (nf : Option String) (env0 : Env) :
    (main_run w dry nf env0).exitCode =
      (if (check_prerequisites w env0).ok = false then 1
       else if sessionTruthy (get_session_key w (check_prerequisites w env0).env).token
         = false then 1
       else 0) := by
  unfold main_run
  cases hpc : (check_prerequisites w env0).ok with
  | false => simp [hpc]
  | true =>
    simp only [hpc, Bool.true_eq_false, if_false]
    cases hsk : (get_session_key w (check_prerequisites w env0).env).token with
    | none => simp [hsk, sessionTruthy]
    | some s =>
      by_cases hs : s = ""
      · simp [hsk, hs, sessionTruthy]
      · obtain ⟨keys, hk⟩ := get_ssh_keys_ok w (check_prerequisites w env0).env nf s hs
        simp only [hsk, hk, if_neg hs, sessionTruthy]
        by_cases h1 : keys.isEmpty <;> by_cases h2 : dry = true <;>
          simp [h1, h2, hs]

/-- Environment with an agent socket and an external session token set. -/
def envBase : Env :=
  [("SSH_AUTH_SOCK", "/tmp/agent.sock"), ("BW_SESSION", "tok")]

/-- A world where every step succeeds except the vault listing, which
exits non-zero. -/
def wListFail : World :=
  { bwVersionOk := true
    pathExists := fun _ => true
    agentLaunchExit := 0
    agentLaunchStdout := []
    statusResp := .parsed (some "unlocked")
    password := "pw"
    unlockExit := 0
    unlockStdout := "newtok"
    unlockStderr := ""
    listExit := 1
    listResp := .malformed
    sshAddExit := fun _ => 0
    sshAddStderr := fun _ => "" }

/-- C1 counterexample: with a prerequisite check and session acquisition
that succeed and a listing command exiting non-zero, the run terminates
with exit code 0, not the fatal exit code 1 the claim states. -/
theorem c1_claim_counterexample :
    wListFail.listExit ≠ 0 ∧ (main_run wListFail false none envBase).exitCode = 0 := by
  constructor
  · decide
  · rfl

/-- C1 (amended): when the listing command exits non-zero, `get_ssh_keys`
catches the failure internally and returns the empty sequence, so the run
prints "No SSH keys found in vault" and terminates with exit code 0. -/
theorem c1_amended_listing_failure_exits_zero (w : World) (dry : Bool)
    (nf : Option String) (env0 : Env) (s : String)
    (hpc : (check_prerequisites w env0).ok = true)
    (hsk : (get_session_key w (check_prerequisites w env0).env).token = some s)
    (hs : s ≠ "")
    (hl : w.listExit ≠ 0) :
    (get_ssh_keys w (check_prerequisites w env0).env (some s) nf).result =
      Except.ok [] ∧
    (main_run w dry nf env0).exitCode = 0 ∧
    (main_run w dry nf env0).output = ["No SSH keys found in vault"] := by
  have hgk : get_ssh_keys w (check_prerequisites w env0).env (some s) nf =
      { result := .ok [],
        events := [Event.runBwList
          (envSet (check_prerequisites w env0).env "BW_SESSION" s)] } := by
    unfold get_ssh_keys
    simp [hs, hl]
  refine ⟨by rw [hgk], ?_, ?_⟩ <;>
  · unfold main_run
    simp [hpc, hsk, hs, hgk]

/-- Witness for the amended C1 at a concrete world. -/
theorem c1_amended_witness :
    (main_run wListFail false none envBase).exitCode = 0 ∧
    (main_run wListFail false none envBase).output = ["No SSH keys found in vault"] := by
  have h := c1_amended_listing_failure_exits_zero wListFail false none envBase "tok"
    (by decide) (by decide) (by decide) (by decide)
  exact ⟨h.2.1, h.2.2⟩

/-! ## Event-trace shape lemmas -/

theorem add_key_events_shape (w : World) (env : Env) (item : VaultItem) :
    (add_key_to_agent w env item).events = [] ∨
    ∃ p, privOf item = some p ∧
      (add_key_to_agent w env item).events =
        [Event.runSshAdd ["ssh-add", "-"] (some p) env] := by
  unfold add_key_to_agent
  cases privOf item with
  | none => left; simp
  | some p =>
    right
    refine ⟨p, rfl, ?_⟩
    by_cases h : w.sshAddExit item ≠ 0 <;> simp [h]

theorem provisionAll_events_shape (w : World) (env : Env) :
    ∀ keys e, e ∈ (provisionAll w env keys).2 →
      ∃ a sd, e = Event.runSshAdd a sd env := by
  intro keys
  induction keys with
  | nil => intro e h; simp [provisionAll] at h
  | cons item rest ih =>
    intro e h
    simp only [provisionAll, List.mem_append] at h
    rcases h with h | h
    · rcases add_key_events_shape w env item with hsh | ⟨p, _, hsh⟩
      · rw [hsh] at h
        simp at h
      · rw [hsh] at h
        simp at h
        exact ⟨["ssh-add", "-"], some p, h⟩
    · exact ih e h

theorem mem_check_events (w : World) (env : Env) (e : Event)
    (h : e ∈ (check_prerequisites w env).events) :
    e = Event.runBwVersion ∨ e = Event.runAgentLaunch := by
  unfold check_prerequisites at h
  by_cases h1 : w.bwVersionOk = false
  · simp [h1] at h
    exact Or.inl h
  · by_cases h2 : needsAgentStart w env = true
    · by_cases h3 : w.agentLaunchExit ≠ 0 <;> simp [h1, h2, h3] at h <;> exact h
    · simp [h1, h2] at h
      exact Or.inl h

theorem mem_promptAndUnlock_events (w : World) (ev0 : List Event) (e : Event)
    (h : e ∈ (promptAndUnlock w ev0).events) :
    e ∈ ev0 ∨ e = Event.promptPassword ∨
      e = Event.runBwUnlock ["bw", "unlock", w.password, "--raw"] := by
  unfold promptAndUnlock at h
  by_cases hu : w.unlockExit ≠ 0 <;> simp [hu] at h <;> tauto

theorem mem_session_events (w : World) (env : Env) (e : Event)
    (h : e ∈ (get_session_key w env).events) :
    e = Event.runBwStatus env ∨ e = Event.promptPassword ∨
      e = Event.runBwUnlock ["bw", "unlock", w.password, "--raw"] := by
  unfold get_session_key at h
  cases hb : envGet env "BW_SESSION" with
  | none =>
    rw [hb] at h
    rcases mem_promptAndUnlock_events w [] e h with h' | h'
    · simp at h'
    · tauto
  | some s =>
    rw [hb] at h
    by_cases hs : s = ""
    · simp only [if_pos hs] at h
      rcases mem_promptAndUnlock_events w [] e h with h' | h'
      · simp at h'
      · tauto
    · simp only [if_neg hs] at h
      cases hst : w.statusResp with
      | malformed =>
        rw [hst] at h
        simp at h
        tauto
      | parsed f =>
        rw [hst] at h
        by_cases hf : f = some "unlocked"
        · simp [hf] at h
          tauto
        · simp only [if_neg hf] at h
          rcases mem_promptAndUnlock_events w [Event.runBwStatus env] e h with h' | h'
          · simp at h'
            tauto
          · tauto

theorem mem_keys_events (w : World) (env : Env) (sk nf : Option String) (e : Event)
    (h : e ∈ (get_ssh_keys w env sk nf).events) :
    ∃ s, sk = some s ∧ e = Event.runBwList (envSet env "BW_SESSION" s) := by
  unfold get_ssh_keys at h
  cases sk with
  | none => simp at h
  | some s =>
    by_cases hs : s = ""
    · simp [hs] at h
    · refine ⟨s, rfl, ?_⟩
      simp only [if_neg hs] at h
      by_cases hl : w.listExit ≠ 0
      · simp [hl] at h
        exact h
      · cases hr : w.listResp with
        | malformed => simp [hl, hr] at h; exact h
        | parsed items => simp [hl, hr] at h; exact h

/-- The full trace of `main`, stage by stage: the prerequisite events,
then (when prerequisites pass) the session events, then (when a truthy
token was obtained) the listing events, then (when keys were found and the
run is not a dry run) the provisioning events. -/
theorem main_run_events (w : World) (dry : Bool) (nf : Option String) (env0 : Env) :
    (main_run w dry nf env0).events = (check_prerequisites w env0).events ++
      (if (check_prerequisites w env0).ok = false then []
       else (get_session_key w (check_prerequisites w env0).env).events ++
         (match (get_session_key w (check_prerequisites w env0).env).token with
          | none => []
          | some s =>
            if s = "" then []
            else (get_ssh_keys w (check_prerequisites w env0).env (some s) nf).events ++
              (match (get_ssh_keys w (check_prerequisites w env0).env (some s) nf).result with
               | .error _ => []
               | .ok keys =>
                 if keys.isEmpty then []
                 else if dry then []
                 else (provisionAll w (check_prerequisites w env0).env keys).2))) := by
  unfold main_run
  by_cases h1 : (check_prerequisites w env0).ok = false
  · simp [h1]
  · simp only [h1, if_false, if_neg h1]
    cases h2 : (get_session_key w (check_prerequisites w env0).env).token with
    | none => simp
    | some s =>
      by_cases hs : s = ""
      · simp [hs]
      · simp only [if_neg hs]
        cases h3 : (get_ssh_keys w (check_prerequisites w env0).env (some s) nf).result with
        | error msg => simp
        | ok keys =>
          by_cases h4 : keys.isEmpty
          · simp [h4]
          · by_cases h5 : dry = true <;> simp [h4, h5]

/-- A world where listing succeeds with one qualifying and one
non-qualifying entry. -/
def wProvision : World :=
  { wListFail with listExit := 0, listResp := .parsed [itemGithub, itemGitlab] }

/-- C5: in dry-run mode the agent "add identity" operation is never
invoked, for every key sequence; when keys were extracted the run exits 0
and prints exactly the dry-run header followed by one name-and-fingerprint
line per key. -/
theorem c5_dry_run_skips_agent (w : World) (nf : Option String) (env0 : Env) :
    ((main_run w true nf env0).events.countP isSshAddEvent = 0) ∧
    (∀ s keys, (check_prerequisites w env0).ok = true →
      (get_session_key w (check_prerequisites w env0).env).token = some s →
      s ≠ "" →
      (get_ssh_keys w (check_prerequisites w env0).env (some s) nf).result =
        Except.ok keys →
      keys.isEmpty = false →
      (main_run w true nf env0).exitCode = 0 ∧
      (main_run w true nf env0).output =
        "Dry run - would add these keys:" :: keys.map dryRunLine) := by
  constructor
  · rw [List.countP_eq_zero]
    intro e he
    rw [main_run_events] at he
    simp only [List.mem_append] at he
    rcases he with he | he
    · rcases mem_check_events w env0 e he with h | h <;> simp [h, isSshAddEvent]
    · by_cases h1 : (check_prerequisites w env0).ok = false
      · rw [if_pos h1] at he
        simp at he
      · rw [if_neg h1] at he
        simp only [List.mem_append] at he
        rcases he with he | he
        · rcases mem_session_events w _ e he with h | h | h <;> simp [h, isSshAddEvent]
        · cases h2 : (get_session_key w (check_prerequisites w env0).env).token with
          | none =>
            rw [h2] at he
            simp at he
          | some s =>
            rw [h2] at he
            by_cases hs : s = ""
            · simp [hs] at he
            · simp [hs, List.mem_append] at he
              rcases he with he | he
              · obtain ⟨s', _, h⟩ := mem_keys_events w _ (some s) nf e he
                simp [h, isSshAddEvent]
              · cases h3 : (get_ssh_keys w (check_prerequisites w env0).env
                    (some s) nf).result with
                | error m =>
                  rw [h3] at he
                  simp at he
                | ok keys =>
                  rw [h3] at he
                  by_cases h4 : keys.isEmpty <;> simp [h4] at he
  · intro s keys hpc hsk hs hk hne
    unfold main_run
    simp [hpc, hsk, hs, hk, hne]

/-- Witness for C5 at a concrete world with two listed entries. -/
theorem c5_dry_run_skips_agent_witness :
    (main_run wProvision true none envBase).exitCode = 0 ∧
    (main_run wProvision true none envBase).output =
      "Dry run - would add these keys:" :: [itemGithub].map dryRunLine :=
  (c5_dry_run_skips_agent wProvision none envBase).2 "tok" [itemGithub]
    (by decide) (by decide) (by decide) (by decide) (by decide)

/-- A world with an external session token whose status query returns
unparseable output. -/
def wStatusMalformed : World :=
  { wListFail with statusResp := .malformed }

/-- A world with an external session token whose status query reports
"locked". -/
def wStatusLocked : World :=
  { wListFail with statusResp := .parsed (some "locked") }

/-- C2 counterexample: with `BW_SESSION` set and a malformed status
response, `get_session_key` returns `None` (the run then exits 1) and the
master-password prompt never happens — contrary to the claim that every
non-"unlocked" status outcome, including a malformed one, proceeds to the
prompt. -/
theorem c2_claim_counterexample :
    envGet envBase "BW_SESSION" = some "tok" ∧
    wStatusMalformed.statusResp = StatusResp.malformed ∧
    (get_session_key wStatusMalformed envBase).token = none ∧
    Event.promptPassword ∉ (get_session_key wStatusMalformed envBase).events := by
  decide

/-- C2 (amended): with an externally supplied non-empty `BW_SESSION`,
`get_session_key` returns that token without prompting exactly when the
status output parses with field "unlocked"; when the status output is
malformed it fails (returns `None`) without prompting; when it parses with
any other field value it prompts. -/
theorem c2_amended_session_reuse (w : World) (env : Env) (s : String)
    (hbw : envGet env "BW_SESSION" = some s) (hs : s ≠ "") :
    (get_session_key w env =
        { token := some s, events := [Event.runBwStatus env] } ↔
      w.statusResp = StatusResp.parsed (some "unlocked")) ∧
    (w.statusResp = StatusResp.malformed →
      (get_session_key w env).token = none ∧
      (get_session_key w env).events.countP isPromptEvent = 0) ∧
    (∀ f, w.statusResp = StatusResp.parsed f → f ≠ some "unlocked" →
      (get_session_key w env).events.countP isPromptEvent = 1) := by
  have hgs : get_session_key w env =
      match w.statusResp with
      | .malformed => { token := none, events := [Event.runBwStatus env] }
      | .parsed field =>
        if field = some "unlocked" then
          { token := some s, events := [Event.runBwStatus env] }
        else promptAndUnlock w [Event.runBwStatus env] := by
    unfold get_session_key
    rw [hbw]
    simp [hs]
  refine ⟨?_, ?_, ?_⟩
  · cases hst : w.statusResp with
    | malformed =>
      rw [hgs, hst]
      simp
    | parsed f =>
      rw [hgs, hst]
      by_cases hf : f = some "unlocked"
      · simp [hf]
      · simp only [if_neg hf]
        unfold promptAndUnlock
        by_cases hu : w.unlockExit ≠ 0 <;> simp [hu, hf]
  · intro hm
    rw [hgs, hm]
    simp [isPromptEvent, List.countP_cons, List.countP_nil]
  · intro f hf hne
    rw [hgs, hf]
    simp only [if_neg hne]
    unfold promptAndUnlock
    by_cases hu : w.unlockExit ≠ 0 <;>
      simp [hu, isPromptEvent, List.countP_cons, List.countP_nil, List.countP_append]

/-- Witness for the amended C2: a "locked" status leads to exactly one
prompt. -/
theorem c2_amended_witness :
    (get_session_key wStatusLocked envBase).events.countP isPromptEvent = 1 :=
  (c2_amended_session_reuse wStatusLocked envBase "tok" (by decide) (by decide)).2.2
    (some "locked") (by decide) (by decide)

theorem countP_sshadd_check_zero (w : World) (env : Env) :
    (check_prerequisites w env).events.countP isSshAddEvent = 0 := by
  rw [List.countP_eq_zero]
  intro e he
  rcases mem_check_events w env e he with h | h <;> simp [h, isSshAddEvent]

theorem countP_sshadd_session_zero (w : World) (env : Env) :
    (get_session_key w env).events.countP isSshAddEvent = 0 := by
  rw [List.countP_eq_zero]
  intro e he
  rcases mem_session_events w env e he with h | h | h <;> simp [h, isSshAddEvent]

/-- A world where the agent launch fails. -/
def wNoAgent : World :=
  { wListFail with agentLaunchExit := 1 }

/-- An environment with no agent socket variable. -/
def envNoSock : Env := [("BW_SESSION", "tok")]

/-- C7: the Environment Probe checks the socket-path variable and, when it
is unset/empty or names no existing path, launches the agent exactly once;
a non-zero launch exit fails the check; a zero exit installs exactly the
parsed `SSH_AUTH_SOCK`/`SSH_AGENT_PID` assignments, leaving every other
variable unchanged; and when the socket is unset and the launch fails the
whole run exits 1 with no vault status, unlock, or listing interaction. -/
theorem c7_agent_probe (w : World) (dry : Bool) (nf : Option String) (env0 : Env) :
    (w.bwVersionOk = true → needsAgentStart w env0 = true →
      (check_prerequisites w env0).events.countP isAgentLaunchEvent = 1) ∧
    (w.bwVersionOk = true → needsAgentStart w env0 = true → w.agentLaunchExit ≠ 0 →
      (check_prerequisites w env0).ok = false) ∧
    (w.bwVersionOk = true → needsAgentStart w env0 = true → w.agentLaunchExit = 0 →
      (check_prerequisites w env0).env = (applyAgentLines w.agentLaunchStdout env0).1 ∧
      ∀ k, k ≠ "SSH_AUTH_SOCK" → k ≠ "SSH_AGENT_PID" →
        envGet (check_prerequisites w env0).env k = envGet env0 k) ∧
    (envGet env0 "SSH_AUTH_SOCK" = none → w.agentLaunchExit ≠ 0 →
      (main_run w dry nf env0).exitCode = 1 ∧
      (main_run w dry nf env0).events.countP isVaultEvent = 0) := by
  refine ⟨?_, ?_, ?_, ?_⟩
  · intro hbw hns
    unfold check_prerequisites
    by_cases hx : w.agentLaunchExit ≠ 0 <;>
      simp [hbw, hns, hx, isAgentLaunchEvent, List.countP_cons, List.countP_nil]
  · intro hbw hns hx
    unfold check_prerequisites
    simp [hbw, hns, hx]
  · intro hbw hns hx
    have hxx : ¬(w.agentLaunchExit ≠ 0) := by simp [hx]
    have he : (check_prerequisites w env0).env =
        (applyAgentLines w.agentLaunchStdout env0).1 := by
      unfold check_prerequisites
      simp [hbw, hns, hxx]
    refine ⟨he, ?_⟩
    intro k h1 h2
    rw [he]
    exact applyAgentLines_frame w.agentLaunchStdout k h1 h2 env0
  · intro hso hx
    have hns : needsAgentStart w env0 = true := by
      unfold needsAgentStart
      rw [hso]
    have hok : (check_prerequisites w env0).ok = false ∧
        ((check_prerequisites w env0).events = [Event.runBwVersion] ∨
         (check_prerequisites w env0).events =
           [Event.runBwVersion, Event.runAgentLaunch]) := by
      unfold check_prerequisites
      cases hbw : w.bwVersionOk
      · simp
      · simp [hns, hx]
    obtain ⟨hok1, hev⟩ := hok
    constructor
    · unfold main_run
      simp [hok1]
    · rw [main_run_events]
      simp only [hok1, if_true, List.append_nil]
      rcases hev with h | h <;> rw [h] <;>
        simp [isVaultEvent, List.countP_cons, List.countP_nil]

/-- Witness for C7 (scenario D) at a concrete world. -/
theorem c7_agent_probe_witness :
    (main_run wNoAgent false none envNoSock).exitCode = 1 ∧
    (main_run wNoAgent false none envNoSock).events.countP isVaultEvent = 0 :=
  (c7_agent_probe wNoAgent false none envNoSock).2.2.2 (by decide) (by decide)

/-- C8: the Agent Provisioner runs only after a truthy session token was
obtained (a non-zero count of add-identity invocations implies the
prerequisite check passed and the session is truthy); `get_ssh_keys`
raises immediately — performing no vault query — when no truthy session
key is held, and otherwise issues exactly one listing invocation whose
environment carries the session token under `BW_SESSION`. -/
theorem c8_no_provisioning_without_session (w : World) (dry : Bool)
    (nf : Option String) (env0 env : Env) (s : String) (hs : s ≠ "") :
    ((main_run w dry nf env0).events.countP isSshAddEvent ≠ 0 →
      (check_prerequisites w env0).ok = true ∧
      sessionTruthy (get_session_key w (check_prerequisites w env0).env).token
        = true) ∧
    ((get_ssh_keys w env none nf).result =
        Except.error "No active Bitwarden session" ∧
      (get_ssh_keys w env none nf).events = []) ∧
    ((get_ssh_keys w env (some "") nf).result =
        Except.error "No active Bitwarden session" ∧
      (get_ssh_keys w env (some "") nf).events = []) ∧
    ((get_ssh_keys w env (some s) nf).events =
        [Event.runBwList (envSet env "BW_SESSION" s)] ∧
      envGet (envSet env "BW_SESSION" s) "BW_SESSION" = some s) := by
  refine ⟨?_, ⟨rfl, rfl⟩, ?_, ?_, ?_⟩
  · intro h
    by_cases hpc : (check_prerequisites w env0).ok = false
    · exfalso
      apply h
      rw [main_run_events]
      simp [hpc, List.countP_append, countP_sshadd_check_zero]
    · have hpc' : (check_prerequisites w env0).ok = true := by
        cases hb : (check_prerequisites w env0).ok
        · exact absurd hb hpc
        · rfl
      refine ⟨hpc', ?_⟩
      cases h2 : (get_session_key w (check_prerequisites w env0).env).token with
      | none =>
        exfalso
        apply h
        rw [main_run_events, h2]
        simp [hpc, List.countP_append, countP_sshadd_check_zero,
          countP_sshadd_session_zero]
      | some t =>
        by_cases ht : t = ""
        · exfalso
          apply h
          rw [main_run_events, h2]
          simp [hpc, ht, List.countP_append, countP_sshadd_check_zero,
            countP_sshadd_session_zero]
        · simp [sessionTruthy, h2, ht]
  · unfold get_ssh_keys
    simp
  · unfold get_ssh_keys
    simp only [if_neg hs]
    by_cases hl : w.listExit ≠ 0
    · simp [hl]
    · cases hr : w.listResp <;> simp [hl, hr]
  · simp [envGet, envSet]

/-- Witness for C8 at a run that does provision a key. -/
theorem c8_no_provisioning_without_session_witness :
    (check_prerequisites wProvision envBase).ok = true ∧
    sessionTruthy
      (get_session_key wProvision (check_prerequisites wProvision envBase).env).token
      = true :=
  (c8_no_provisioning_without_session wProvision false none envBase envBase "tok"
    (by decide)).1 (by decide)

theorem main_run_finalEnv (w : World) (dry : Bool) (nf : Option String) (env0 : Env) :
    (main_run w dry nf env0).finalEnv = (check_prerequisites w env0).env := by
  unfold main_run
  by_cases h1 : (check_prerequisites w env0).ok = false
  · simp [h1]
  · simp only [if_neg h1]
    cases h2 : (get_session_key w (check_prerequisites w env0).env).token with
    | none => simp
    | some s =>
      by_cases hs : s = ""
      · simp [hs]
      · simp only [if_neg hs]
        cases h3 : (get_ssh_keys w (check_prerequisites w env0).env (some s) nf).result with
        | error m => simp
        | ok keys =>
          by_cases h4 : keys.isEmpty
          · simp [h4]
          · by_cases h5 : dry = true <;> simp [h4, h5]

theorem main_run_event_origin (w : World) (dry : Bool) (nf : Option String)
    (env0 : Env) (e : Event) (he : e ∈ (main_run w dry nf env0).events) :
    e = Event.runBwVersion ∨ e = Event.runAgentLaunch ∨
    e = Event.runBwStatus (check_prerequisites w env0).env ∨
    e = Event.promptPassword ∨
    e = Event.runBwUnlock ["bw", "unlock", w.password, "--raw"] ∨
    (∃ s, e = Event.runBwList
      (envSet (check_prerequisites w env0).env "BW_SESSION" s)) ∨
    (∃ a sd, e = Event.runSshAdd a sd (check_prerequisites w env0).env) := by
  rw [main_run_events] at he
  simp only [List.mem_append] at he
  rcases he with he | he
  · rcases mem_check_events w env0 e he with h | h
    · exact Or.inl h
    · exact Or.inr (Or.inl h)
  · by_cases h1 : (check_prerequisites w env0).ok = false
    · rw [if_pos h1] at he
      simp at he
    · rw [if_neg h1] at he
      simp only [List.mem_append] at he
      rcases he with he | he
      · rcases mem_session_events w _ e he with h | h | h
        · exact Or.inr (Or.inr (Or.inl h))
        · exact Or.inr (Or.inr (Or.inr (Or.inl h)))
        · exact Or.inr (Or.inr (Or.inr (Or.inr (Or.inl h))))
      · cases h2 : (get_session_key w (check_prerequisites w env0).env).token with
        | none =>
          rw [h2] at he
          simp at he
        | some s =>
          rw [h2] at he
          by_cases hs : s = ""
          · simp [hs] at he
          · simp [hs, List.mem_append] at he
            rcases he with he | he
            · obtain ⟨s', _, h⟩ := mem_keys_events w _ (some s) nf e he
              exact Or.inr (Or.inr (Or.inr (Or.inr (Or.inr (Or.inl ⟨s', h⟩)))))
            · cases h3 : (get_ssh_keys w (check_prerequisites w env0).env
                  (some s) nf).result with
              | error m =>
                rw [h3] at he
                simp at he
              | ok keys =>
                rw [h3] at he
                simp at he
                exact Or.inr (Or.inr (Or.inr (Or.inr (Or.inr (Or.inr
                  (provisionAll_events_shape w _ keys e he.2.2))))))

/-- C10: the process-global environment is written only by the probe step:
after `check_prerequisites` the global environment never changes (the
run's final environment is exactly the probe's); attaching the session
token for the listing call touches only a private copy, modifying nothing
but `BW_SESSION`; every add-identity invocation receives exactly the
post-probe global environment, and every listing invocation receives the
post-probe environment with only `BW_SESSION` added. -/
theorem c10_env_written_only_by_probe (w : World) (dry : Bool) (nf : Option String)
    (env0 : Env) :
    ((main_run w dry nf env0).finalEnv = (check_prerequisites w env0).env) ∧
    (∀ env s k, k ≠ "BW_SESSION" →
      envGet (envSet env "BW_SESSION" s) k = envGet env k) ∧
    (∀ a sd e, Event.runSshAdd a sd e ∈ (main_run w dry nf env0).events →
      e = (check_prerequisites w env0).env) ∧
    (∀ e, Event.runBwList e ∈ (main_run w dry nf env0).events →
      ∃ s, e = envSet (check_prerequisites w env0).env "BW_SESSION" s) := by
  refine ⟨main_run_finalEnv w dry nf env0, ?_, ?_, ?_⟩
  · intro env s k hk
    have hne : ¬("BW_SESSION" = k) := fun h => hk h.symm
    simp [envSet, envGet, hne]
  · intro a sd e he
    rcases main_run_event_origin w dry nf env0 (Event.runSshAdd a sd e) he with
      h | h | h | h | h | ⟨s, h⟩ | ⟨a', sd', h⟩
    · exact absurd h (by simp)
    · exact absurd h (by simp)
    · exact absurd h (by simp)
    · exact absurd h (by simp)
    · exact absurd h (by simp)
    · exact absurd h (by simp)
    · exact (Event.runSshAdd.inj h).2.2
  · intro e he
    rcases main_run_event_origin w dry nf env0 (Event.runBwList e) he with
      h | h | h | h | h | ⟨s, h⟩ | ⟨a', sd', h⟩
    · exact absurd h (by simp)
    · exact absurd h (by simp)
    · exact absurd h (by simp)
    · exact absurd h (by simp)
    · exact absurd h (by simp)
    · exact ⟨s, Event.runBwList.inj h⟩
    · exact absurd h (by simp)

/-- Witness for C10: in a provisioning run the add-identity call received
exactly the post-probe environment. -/
theorem c10_env_written_only_by_probe_witness :
    envBase = (check_prerequisites wProvision envBase).env :=
  (c10_env_written_only_by_probe wProvision false none envBase).2.2.1
    ["ssh-add", "-"] (some "KEY1") envBase (by decide)
